import Mathlib

/-!
Verification of redux-persist-transform-passwords.

A shallow embedding of `src/index.js` (the main variant: the one with
`accountName`, whole-object mode, `deleteIn`, `setPasswordForPath`,
`getPasswordForPath` and `accessKeychain`, which is the variant its test
suite exercises).  Application state is modelled as a JSON-like value
tree `JVal` (including the JavaScript `undefined`), lodash paths as
pre-parsed segment lists, and the external keytar secret store as an
oracle deciding the outcome of every store call.  Both transform hooks
are modelled as pure functions returning the new state together with a
trace of store calls and log events.
-/

namespace RPTP

/-- A JavaScript/JSON value, including `undefined`.  Objects are ordered
key/value lists (JS objects preserve insertion order); numbers are
modelled as integers, which covers every value the repository's code and
tests manipulate. -/
inductive JVal where
  | undefined : JVal
  | null : JVal
  | bool : Bool → JVal
  | num : Int → JVal
  | str : String → JVal
  | arr : List JVal → JVal
  | obj : List (String × JVal) → JVal

/-- One segment of a parsed lodash path: a mapping key or a sequence
index. -/
inductive Seg where
  | key : String → Seg
  | idx : Nat → Seg
deriving DecidableEq

/-- A lodash path, pre-parsed into segments (the JS code carries paths as
strings such as `a.b[0].c` and lets lodash parse them). -/
abbrev JPath := List Seg

/-- JavaScript truthiness of a value: `undefined`, `null`, `false`, `0`
and the empty string are falsy, everything else (including empty objects
and arrays) is truthy. -/
def truthy : JVal → Bool
  | .undefined => false
  | .null => false
  | .bool b => b
  | .num n => n != 0
  | .str s => s != ""
  | .arr _ => true
  | .obj _ => true

example : truthy (.obj []) = true := by decide
example : truthy (.num 0) = false := by decide

/-- Field lookup in an object's key/value list; a missing key reads as
`undefined`, exactly like JS property access. -/
def lookupField : List (String × JVal) → String → JVal
  | [], _ => .undefined
  | (k, v) :: rest, k2 => if k = k2 then v else lookupField rest k2

/-- Assign a field: replace the binding in place when the key exists
(JS keeps the original insertion position), otherwise append it. -/
def setField : List (String × JVal) → String → JVal → List (String × JVal)
  | [], k2, x => [(k2, x)]
  | (k, v) :: rest, k2, x =>
    if k = k2 then (k, x) :: rest else (k, v) :: setField rest k2 x

/-- Delete a field (JS `delete` removes the own property). -/
def removeField : List (String × JVal) → String → List (String × JVal)
  | [], _ => []
  | (k, v) :: rest, k2 => if k = k2 then rest else (k, v) :: removeField rest k2

/-- Write index `i` of a list, extending with `undefined` holes when the
index is past the end, exactly as JS array index assignment does. -/
def padSet : List JVal → Nat → JVal → List JVal
  | [], 0, c => [c]
  | [], n + 1, c => .undefined :: padSet [] n c
  | _ :: rest, 0, c => c :: rest
  | x :: rest, n + 1, c => x :: padSet rest n c

/-- JS `delete arr[i]`: leaves a hole (modelled as `undefined`) without
shifting later elements; out-of-range deletion is a no-op. -/
def holeAt : List JVal → Nat → List JVal
  | [], _ => []
  | _ :: rest, 0 => .undefined :: rest
  | x :: rest, n + 1 => x :: holeAt rest n

/-- Read one path segment off a value.  Objects answer keys, arrays
answer indices, everything else (and a mismatched segment kind, which no
code path of this repository exercises) reads as `undefined` — lodash
`get` never throws. -/
def getChild : JVal → Seg → JVal
  | .obj fs, .key k => lookupField fs k
  | .arr xs, .idx i => (xs.get? i).getD .undefined
  | _, _ => .undefined

/-- Write one path segment on a value.  Writing a segment into a
non-container (or a mismatched segment kind) is a silent no-op, like
non-strict JS property assignment on a primitive. -/
def putChild (v : JVal) (s : Seg) (c : JVal) : JVal :=
  match v, s with
  | .obj fs, .key k => .obj (setField fs k c)
  | .arr xs, .idx i => .arr (padSet xs i c)
  | _, _ => v

/-- Delete one path segment on a value (`delete parent[last]`). -/
def delChild (v : JVal) (s : Seg) : JVal :=
  match v, s with
  | .obj fs, .key k => .obj (removeField fs k)
  | .arr xs, .idx i => .arr (holeAt xs i)
  | _, _ => v

/-- Walk a segment list, reading. -/
def getSegs : JVal → List Seg → JVal
  | v, [] => v
  | v, s :: rest => getSegs (getChild v s) rest

/-- lodash `get(state, path)`: the empty path reads as `undefined`. -/
def getPath (v : JVal) (p : JPath) : JVal :=
  match p with
  | [] => .undefined
  | s :: rest => getSegs (getChild v s) rest

/-- The walk of lodash `baseSet`: keep an existing child when it is a
container, otherwise create a fresh array or object depending on whether
the next segment is an index — then write through.  With the `clone`
customizer the spine is copied, which on pure values is the identity, so
this is also the semantics of `setWith(.., path, x, clone)`. -/
def setSegs (v : JVal) (s : Seg) (rest : List Seg) (x : JVal) : JVal :=
  match rest with
  | [] => putChild v s x
  | s2 :: rest2 =>
    let cur := getChild v s
    let base :=
      match cur with
      | .obj fs => JVal.obj fs
      | .arr xs => JVal.arr xs
      | _ =>
        match s2 with
        | .idx _ => JVal.arr []
        | .key _ => JVal.obj []
    putChild v s (setSegs base s2 rest2 x)

/-- lodash `set` and `setWith`: the empty path returns the object
unchanged. -/
def setPath (v : JVal) (p : JPath) (x : JVal) : JVal :=
  match p with
  | [] => v
  | s :: rest => setSegs v s rest x

/-- lodash `unset(state, path)`: navigate to the parent of the final
segment and delete it there; if the chain is broken by a missing value
or a non-container, nothing happens. -/
def unsetSegs (v : JVal) (s : Seg) (rest : List Seg) : JVal :=
  match rest with
  | [] => delChild v s
  | s2 :: rest2 =>
    match getChild v s with
    | .obj fs => putChild v s (unsetSegs (.obj fs) s2 rest2)
    | .arr xs => putChild v s (unsetSegs (.arr xs) s2 rest2)
    | _ => v

/-- lodash `unset` at the top level (the code only reaches it with a
non-empty path, guarded by `isEmpty`). -/
def unsetPath (v : JVal) (p : JPath) : JVal :=
  match p with
  | [] => v
  | s :: rest => unsetSegs v s rest

/-- Keys produced by spreading an array (`0`, `1`, ...). -/
def spreadArr : List JVal → Nat → List (String × JVal)
  | [], _ => []
  | x :: rest, i => (toString i, x) :: spreadArr rest (i + 1)

/-- The JS object spread `\x7b ...state \x7d`: an object copies its own
fields, an array or string becomes an object with index keys, and
spreading a primitive yields the empty object. -/
def jsSpread : JVal → JVal
  | .obj fs => .obj fs
  | .arr xs => .obj (spreadArr xs 0)
  | .str s => .obj (spreadArr (s.data.map fun c => JVal.str (String.mk [c])) 0)
  | _ => .obj []

/-- `deleteIn` from `src/index.js`: an empty path collapses the state to
the empty object; otherwise the value at the path is written back with a
spine-cloning `setWith` (so only fresh nodes are touched) and then
`unset` removes the final binding. -/
def deleteIn (state : JVal) (path : JPath) : JVal :=
  if path.isEmpty then .obj []
  else
    let valueAtPath := getPath state path
    let stateWithClonedPath := setPath (jsSpread state) path valueAtPath
    unsetPath stateWithClonedPath path

example :
    deleteIn (.obj [("a", .obj [("b", .str "x"), ("c", .num 1)])])
      [.key "a", .key "b"] =
    .obj [("a", .obj [("c", .num 1)])] := by rfl

example :
    deleteIn (.obj [("a", .str "x")]) [] = .obj [] := by rfl

mutual

/-- JS `String(value)` / `value.toString()`.  `none` models the throw on
`null`/`undefined` (which upstream truthiness guards make unreachable at
the call sites of this repository). -/
def jsToString : JVal → Option String
  | .undefined => none
  | .null => none
  | .bool b => some (if b then "true" else "false")
  | .num n => some (toString n)
  | .str s => some s
  | .arr xs => some (String.intercalate "," (jsArrStrings xs))
  | .obj _ => some "[object Object]"

/-- `Array.prototype.toString` renders elements recursively, with holes
and `null` rendering as the empty string. -/
def jsArrStrings : List JVal → List String
  | [] => []
  | x :: rest => (jsToString x).getD "" :: jsArrStrings rest

end

example : jsToString (.arr [.num 1, .null, .str "a"]) = some "1,,a" := by rfl

/-- Two-character hex rendering of a code point below 256, for JSON
control-character escapes. -/
def hexDigit (n : Nat) : Char :=
  if n < 10 then Char.ofNat (n + '0'.toNat) else Char.ofNat (n - 10 + 'a'.toNat)

/-- JSON escaping of one character. -/
def escJsonChar (c : Char) : String :=
  if c = '"' then "\\\""
  else if c = '\\' then "\\\\"
  else if c = '\n' then "\\n"
  else if c = '\t' then "\\t"
  else if c = '\r' then "\\r"
  else if c = '\x08' then "\\b"
  else if c = '\x0c' then "\\f"
  else if c.toNat < 32 then
    String.mk ['\\', 'u', '0', '0', hexDigit (c.toNat / 16), hexDigit (c.toNat % 16)]
  else String.mk [c]

/-- A JSON string literal for `s`. -/
def escJson (s : String) : String :=
  "\"" ++ String.join (s.data.map escJsonChar) ++ "\""

mutual

/-- `JSON.stringify`.  `none` is the JS result `undefined` (stringifying
`undefined` itself); inside arrays such values render as `null`, inside
objects the field is skipped. -/
def jsonStringify : JVal → Option String
  | .undefined => none
  | .null => some "null"
  | .bool b => some (if b then "true" else "false")
  | .num n => some (toString n)
  | .str s => some (escJson s)
  | .arr xs => some ("[" ++ String.intercalate "," (jsonArrItems xs) ++ "]")
  | .obj fs => some ("\x7b" ++ String.intercalate "," (jsonObjItems fs) ++ "\x7d")

/-- Array elements under `JSON.stringify` (unrepresentable values render
as `null`). -/
def jsonArrItems : List JVal → List String
  | [] => []
  | x :: rest => (jsonStringify x).getD "null" :: jsonArrItems rest

/-- Object fields under `JSON.stringify` (fields whose value stringifies
to `undefined` are dropped). -/
def jsonObjItems : List (String × JVal) → List String
  | [] => []
  | (k, v) :: rest =>
    match jsonStringify v with
    | none => jsonObjItems rest
    | some sv => (escJson k ++ ":" ++ sv) :: jsonObjItems rest

end

example :
    jsonStringify (.obj [("a", .num 1), ("b", .undefined), ("c", .str "x")]) =
    some "\x7b\"a\":1,\"c\":\"x\"\x7d" := by rfl

/-- `coerceString` from `src/index.js`: serialize mode stringifies as
JSON, otherwise a non-string value is coerced with `toString` and a
string passes through.  `none` models the two ways the JS expression can
fail to produce a string (a throwing `toString`, or `JSON.stringify`
returning `undefined`); at every call site the expression is evaluated
inside the `try` that guards the store write, so `none` surfaces as a
failed write attempt. -/
def coerceString (value : JVal) (serialize : Bool) : Option String :=
  if serialize then jsonStringify value
  else
    match value with
    | .str s => some s
    | v => jsToString v

example : coerceString (.num 4815162342) false = some "4815162342" := by rfl
example : coerceString (.obj [("b", .str "x")]) true = some "\x7b\"b\":\"x\"\x7d" := by rfl

/-- JSON whitespace. -/
def isWsChar (c : Char) : Bool :=
  c = ' ' || c = '\t' || c = '\n' || c = '\r'

/-- Drop leading JSON whitespace. -/
def skipWs : List Char → List Char
  | [] => []
  | c :: rest => if isWsChar c then skipWs rest else c :: rest

/-- Hex digit value, for `\u` escapes. -/
def hexVal (c : Char) : Option Nat :=
  if '0' ≤ c ∧ c ≤ '9' then some (c.toNat - '0'.toNat)
  else if 'a' ≤ c ∧ c ≤ 'f' then some (c.toNat - 'a'.toNat + 10)
  else if 'A' ≤ c ∧ c ≤ 'F' then some (c.toNat - 'A'.toNat + 10)
  else none

/-- The simple JSON string escapes. -/
def escCharVal (c : Char) : Option Char :=
  if c = '"' then some '"'
  else if c = '\\' then some '\\'
  else if c = '/' then some '/'
  else if c = 'n' then some '\n'
  else if c = 't' then some '\t'
  else if c = 'r' then some '\r'
  else if c = 'b' then some '\x08'
  else if c = 'f' then some '\x0c'
  else none

/-- Body of a JSON string literal, after the opening quote; returns the
decoded string and the rest of the input. -/
def parseStrBody : List Char → Option (String × List Char)
  | [] => none
  | '"' :: rest => some ("", rest)
  | '\\' :: 'u' :: a :: b :: c :: d :: rest => do
    let ha ← hexVal a
    let hb ← hexVal b
    let hc ← hexVal c
    let hd ← hexVal d
    let (s, r) ← parseStrBody rest
    pure (String.mk [Char.ofNat (((ha * 16 + hb) * 16 + hc) * 16 + hd)] ++ s, r)
  | '\\' :: e :: rest => do
    let ch ← escCharVal e
    let (s, r) ← parseStrBody rest
    pure (String.mk [ch] ++ s, r)
  | c :: rest =>
    if c.toNat < 32 then none
    else do
      let (s, r) ← parseStrBody rest
      pure (String.mk [c] ++ s, r)

/-- Decimal digit value. -/
def digitVal (c : Char) : Option Nat :=
  if '0' ≤ c ∧ c ≤ '9' then some (c.toNat - '0'.toNat) else none

/-- Consume a run of decimal digits. -/
def parseDigitsAux : List Char → Nat → Nat × List Char
  | [], acc => (acc, [])
  | c :: rest, acc =>
    match digitVal c with
    | some d => parseDigitsAux rest (acc * 10 + d)
    | none => (acc, c :: rest)

/-- A JSON integer literal (optionally negative, no leading zeros).
Fractional and exponent forms are outside the model: no value this
repository stores produces them. -/
def parseNum : List Char → Option (JVal × List Char)
  | '-' :: cs =>
    (parseNum cs).bind fun (v, r) =>
      match v with
      | .num n => some (.num (-n), r)
      | _ => none
  | c :: cs =>
    match digitVal c with
    | none => none
    | some d =>
      if d = 0 then
        match cs with
        | c2 :: _ => if (digitVal c2).isSome then none else some (.num 0, cs)
        | [] => some (.num 0, [])
      else
        let (n, rest) := parseDigitsAux cs d
        some (.num (Int.ofNat n), rest)
  | [] => none

mutual

/-- The JSON value grammar, with fuel bounding the nesting depth (each
level of nesting consumes at least one input character, so a fuel of the
input length suffices). -/
def parseVal : Nat → List Char → Option (JVal × List Char)
  | 0, _ => none
  | fuel + 1, cs =>
    match skipWs cs with
    | 'n' :: 'u' :: 'l' :: 'l' :: rest => some (.null, rest)
    | 't' :: 'r' :: 'u' :: 'e' :: rest => some (.bool true, rest)
    | 'f' :: 'a' :: 'l' :: 's' :: 'e' :: rest => some (.bool false, rest)
    | '"' :: rest => (parseStrBody rest).map fun (s, r) => (.str s, r)
    | '[' :: rest =>
      (match skipWs rest with
       | ']' :: r2 => some (.arr [], r2)
       | r => parseItems fuel r [])
    | '\x7b' :: rest =>
      (match skipWs rest with
       | '\x7d' :: r2 => some (.obj [], r2)
       | r => parseFields fuel r [])
    | cs2 => parseNum cs2

/-- Comma-separated array items up to the closing bracket. -/
def parseItems : Nat → List Char → List JVal → Option (JVal × List Char)
  | 0, _, _ => none
  | fuel + 1, cs, acc => do
    let (v, r) ← parseVal fuel cs
    match skipWs r with
    | ',' :: r2 => parseItems fuel r2 (acc ++ [v])
    | ']' :: r2 => some (.arr (acc ++ [v]), r2)
    | _ => none

/-- Comma-separated object members up to the closing brace.  A repeated
key overwrites the earlier value in place, as `JSON.parse` does. -/
def parseFields : Nat → List Char → List (String × JVal) → Option (JVal × List Char)
  | 0, _, _ => none
  | fuel + 1, cs, acc =>
    match skipWs cs with
    | '"' :: r => do
      let (k, r2) ← parseStrBody r
      match skipWs r2 with
      | ':' :: r3 => do
        let (v, r4) ← parseVal fuel r3
        match skipWs r4 with
        | ',' :: r5 => parseFields fuel r5 (setField acc k v)
        | '\x7d' :: r5 => some (.obj (setField acc k v), r5)
        | _ => none
      | _ => none
    | _ => none

end

/-- `JSON.parse` on a string: an error models the thrown `SyntaxError`. -/
def jsonParse (s : String) : Except Unit JVal :=
  match parseVal (s.data.length + 1) s.data with
  | some (v, rest) => if (skipWs rest).isEmpty then .ok v else .error ()
  | none => .error ()

/-- `JSON.parse(secret)` where `secret` may be the `null` that keytar
resolves for a missing entry: JS coerces the argument to a string first,
and `String(null)` is `"null"`, which parses to the JSON `null`. -/
def jsonParseJs (secret : Option String) : Except Unit JVal :=
  jsonParse (match secret with | some s => s | none => "null")

example : jsonParse "\x7b\"secret\":\"hunter42\"\x7d" =
    .ok (.obj [("secret", .str "hunter42")]) := by rfl
example : jsonParse "\x7b" = .error () := by rfl
example : jsonParseJs none = .ok .null := by rfl
example : jsonParse "[1,-2,true,null]" =
    .ok (.arr [.num 1, .num (-2), .bool true, .null]) := by rfl

/-- What a function-valued `passwordPaths` may return: a path string, a
sequence of path strings, or null/undefined.  Path strings are carried
pre-parsed (the empty segment list is the parse of the empty string). -/
inductive PathsResult where
  | nul : PathsResult
  | strP : JPath → PathsResult
  | listP : List JPath → PathsResult

/-- The `passwordPaths` configuration value: a path string, a sequence
of path strings, or a selector function of the state. -/
inductive PathSpec where
  | strP : JPath → PathSpec
  | listP : List JPath → PathSpec
  | fnP : (JVal → PathsResult) → PathSpec

/-- JS truthiness of an optional string-valued config field (absent or
the empty string are falsy). -/
def strTruthy : Option String → Bool
  | none => false
  | some s => s != ""

/-- JS truthiness of the `passwordPaths` config value: absent and the
empty path string are falsy; arrays (even empty) and functions are
truthy. -/
def specTruthy : Option PathSpec → Bool
  | none => false
  | some (.strP p) => !p.isEmpty
  | some (.listP _) => true
  | some (.fnP _) => true

/-- A keytar account argument: the configured account name, a path
string, or the JS `undefined` that reaches keytar when neither is set. -/
inductive Acct where
  | undefined : Acct
  | name : String → Acct
  | path : JPath → Acct

/-- Messages sent to the logger sink, one constructor per call site. -/
inductive LogMsg where
  | nothingAtPath : JPath → LogMsg
  | writeFail : JPath → LogMsg
  | readFail : JPath → LogMsg
  | wholeWriteFail : LogMsg
  | wholeReadFail : LogMsg
  | cannotAccess : LogMsg

/-- One observable external action of a pass: a `setPassword` attempt
(with its payload and outcome), a `getPassword` call (with its result),
a `deletePassword` call, or a log line. -/
inductive Ev where
  | setA : Acct → String → Bool → Ev
  | getA : Acct → Except Unit (Option String) → Ev
  | delA : Acct → Except Unit Bool → Ev
  | log : LogMsg → Ev

/-- The keytar collaborator as an oracle: for every call it decides
whether `setPassword` resolves or rejects, what `getPassword` resolves
to (a stored string, `null`, or a rejection), and what `deletePassword`
returns. -/
structure Keytar where
  setOk : String → Acct → String → Bool
  get : String → Acct → Except Unit (Option String)
  del : String → Acct → Except Unit Bool

/-- The raw configuration object handed to `createPasswordTransform`. -/
structure Config where
  serviceName : Option String
  accountName : Option String
  passwordPaths : Option PathSpec
  clearPasswords : Option Bool
  serialize : Option Bool

/-- The settings a successfully constructed transform captures. -/
structure TConfig where
  serviceName : String
  accountName : Option String
  passwordPaths : Option PathSpec
  clearPasswords : Bool
  serialize : Bool

/-- `createPasswordTransform` from `src/index.js`: derives
`clearPasswords` (anything but an explicit `false` enables clearing) and
`serialize` (an explicit `true`, or forced on when `passwordPaths` is
falsy), then validates that `serviceName` is truthy and that at least
one of `passwordPaths` and `accountName` is; an `error` models the
synchronous throw. -/
def createPasswordTransform (c : Config) : Except String TConfig :=
  if !strTruthy c.serviceName then .error "serviceName is required"
  else if !specTruthy c.passwordPaths && !strTruthy c.accountName then
    .error "Either passwordPaths or accountName is required"
  else
    .ok
      { serviceName := c.serviceName.getD ""
        accountName := c.accountName
        passwordPaths := c.passwordPaths
        clearPasswords := c.clearPasswords != some false
        serialize := c.serialize == some true || !specTruthy c.passwordPaths }

/-- `getPasswordPaths` from `src/index.js` (main variant): a falsy
`passwordPaths` selects whole-object mode by returning null; otherwise a
function spec is applied to the state, a single string is wrapped in a
one-element array, and a sequence is used as-is.  A function returning
null/undefined also yields null — this variant never throws here. -/
def getPasswordPaths (passwordPaths : Option PathSpec) (state : JVal) :
    Option (List JPath) :=
  if !specTruthy passwordPaths then none
  else
    match passwordPaths with
    | none => none
    | some spec =>
      let paths :=
        match spec with
        | .strP p => PathsResult.strP p
        | .listP l => PathsResult.listP l
        | .fnP f => f state
      match paths with
      | .strP p => some [p]
      | .listP l => some l
      | .nul => none

/-- `accountName || path`: a falsy account name falls back to the path
string as the keytar account. -/
def accountFor : Option String → JPath → Acct
  | some s, p => if s = "" then .path p else .name s
  | none, p => .path p

/-- The account argument passed in whole-object mode: the raw
`accountName`, which is `undefined` when it was never configured. -/
def rawAccount : Option String → Acct
  | some s => .name s
  | none => .undefined

/-- `setPasswordForPath` from `src/index.js`: read the value at `path`
from the state it is handed (the working copy), bail out early when it
is falsy — the bare JS `return;` makes the whole working state
`undefined`, modelled by `.undefined` — otherwise attempt the store write
and, on success, clear the path via `deleteIn` when configured to; a
write failure is caught and logged, leaving the state unchanged. -/
def setPasswordForPath (t : TConfig) (K : Keytar) (inboundState : JVal)
    (path : JPath) : JVal × List Ev :=
  let secret := getPath inboundState path
  if !truthy secret then
    (.undefined, [.log (.nothingAtPath path)])
  else
    let account := accountFor t.accountName path
    match coerceString secret t.serialize with
    | none => (inboundState, [.log (.writeFail path)])
    | some payload =>
      if K.setOk t.serviceName account payload then
        (if t.clearPasswords then deleteIn inboundState path else inboundState,
         [.setA account payload true])
      else
        (inboundState, [.setA account payload false, .log (.writeFail path)])

/-- `getPasswordForPath` from `src/index.js`: read the secret for the
path's account; when it is truthy, decode it (JSON in serialize mode)
and set it at `path` with a spine-cloning `setWith`; a store rejection
or a JSON parse error is caught and logged, leaving the state
unchanged. -/
def getPasswordForPath (t : TConfig) (K : Keytar) (outboundState : JVal)
    (path : JPath) : JVal × List Ev :=
  let account := accountFor t.accountName path
  match K.get t.serviceName account with
  | .error _ => (outboundState, [.getA account (.error ()), .log (.readFail path)])
  | .ok secret =>
    match secret with
    | none => (outboundState, [.getA account (.ok none)])
    | some s =>
      if s = "" then (outboundState, [.getA account (.ok (some s))])
      else
        match (if t.serialize then jsonParse s else .ok (.str s)) with
        | .ok toSet =>
          (setPath outboundState path toSet, [.getA account (.ok (some s))])
        | .error _ =>
          (outboundState, [.getA account (.ok (some s)), .log (.readFail path)])

/-- The per-path loop of the `inbound` hook, threading the working copy
through `setPasswordForPath` and concatenating the event traces. -/
def runInPaths (t : TConfig) (K : Keytar) : JVal → List JPath → JVal × List Ev
  | st, [] => (st, [])
  | st, p :: rest =>
    let r := setPasswordForPath t K st p
    let r2 := runInPaths t K r.1 rest
    (r2.1, r.2 ++ r2.2)

/-- The per-path loop of the `outbound` hook. -/
def runOutPaths (t : TConfig) (K : Keytar) : JVal → List JPath → JVal × List Ev
  | st, [] => (st, [])
  | st, p :: rest =>
    let r := getPasswordForPath t K st p
    let r2 := runOutPaths t K r.1 rest
    (r2.1, r.2 ++ r2.2)

/-- The `inbound` hook of `src/index.js` — the pass redux-persist runs
before state is persisted (the spec calls it the outbound pass).  With
resolved paths it runs the per-path loop on a shallow copy; otherwise it
JSON-coerces the whole copy and attempts one store write under the raw
account name, returning the empty object whether or not the write
succeeds. -/
def inbound (t : TConfig) (K : Keytar) (state : JVal) : JVal × List Ev :=
  let inboundState := jsSpread state
  match getPasswordPaths t.passwordPaths state with
  | some pathsToGet => runInPaths t K inboundState pathsToGet
  | none =>
    let account := rawAccount t.accountName
    match coerceString inboundState t.serialize with
    | none => (.obj [], [.log .wholeWriteFail])
    | some payload =>
      if K.setOk t.serviceName account payload then
        (.obj [], [.setA account payload true])
      else
        (.obj [], [.setA account payload false, .log .wholeWriteFail])

/-- The `outbound` hook of `src/index.js` — the pass redux-persist runs
on rehydration (the spec calls it the inbound pass).  With resolved
paths it runs the per-path loop on a shallow copy; otherwise it reads
the one stored secret and JSON-parses it (keytar's `null` for a missing
entry parses to the JSON `null`), returning the parse result as the
entire state, or the empty object when the read or the parse fails. -/
def outbound (t : TConfig) (K : Keytar) (state : JVal) : JVal × List Ev :=
  let outboundState := jsSpread state
  match getPasswordPaths t.passwordPaths state with
  | some pathsToSet => runOutPaths t K outboundState pathsToSet
  | none =>
    let account := rawAccount t.accountName
    match K.get t.serviceName account with
    | .error _ => (.obj [], [.getA account (.error ()), .log .wholeReadFail])
    | .ok secret =>
      match jsonParseJs secret with
      | .ok v => (v, [.getA account (.ok secret)])
      | .error _ => (.obj [], [.getA account (.ok secret), .log .wholeReadFail])

/-- `accessKeychain` from `src/index.js`: write a dummy entry under the
account name with `-access` appended, then delete it, returning the
delete call's report; any rejection at either step is caught, logged,
and yields `false`. -/
def accessKeychain (K : Keytar) (serviceName accountName : String) :
    Bool × List Ev :=
  let accessCheckAccount := accountName ++ "-access"
  if K.setOk serviceName (.name accessCheckAccount) "access" then
    match K.del serviceName (.name accessCheckAccount) with
    | .ok wasDeleted =>
      (wasDeleted,
       [.setA (.name accessCheckAccount) "access" true,
        .delA (.name accessCheckAccount) (.ok wasDeleted)])
    | .error _ =>
      (false,
       [.setA (.name accessCheckAccount) "access" true,
        .delA (.name accessCheckAccount) (.error ()), .log .cannotAccess])
  else
    (false,
     [.setA (.name accessCheckAccount) "access" false, .log .cannotAccess])

/-- Whether `createPasswordTransform` throws for a given config. -/
def constructionThrows (c : Config) : Bool :=
  match createPasswordTransform c with
  | .error _ => true
  | .ok _ => false

/-- Whether the store-write attempt `setPasswordForPath` makes for a
truthy value at `path` of working copy `w` fails (a throwing coercion or
a rejected `setPassword`). -/
def setCallFails (t : TConfig) (K : Keytar) (w : JVal) (path : JPath) : Bool :=
  match coerceString (getPath w path) t.serialize with
  | none => true
  | some payload => !K.setOk t.serviceName (accountFor t.accountName path) payload

/-- Whether the store read (or the subsequent JSON decode) that
`getPasswordForPath` performs for `path` fails. -/
def getCallFails (t : TConfig) (K : Keytar) (path : JPath) : Bool :=
  match K.get t.serviceName (accountFor t.accountName path) with
  | .error _ => true
  | .ok none => false
  | .ok (some s) =>
    if s = "" then false
    else if t.serialize then
      match jsonParse s with
      | .error _ => true
      | .ok _ => false
    else false

/-- Whether an event of the keychain probe touches only the derived
probe account (log lines carry no account). -/
def probeEvOk (probeAccount : String) : Ev → Bool
  | .setA (.name s) _ _ => s = probeAccount
  | .delA (.name s) _ => s = probeAccount
  | .log _ => true
  | _ => false

/-- A store oracle whose calls all succeed, resolving every read to the
string `hunter42`. -/
def storeAllOk : Keytar :=
  ⟨fun _ _ _ => true, fun _ _ => .ok (some "hunter42"), fun _ _ => .ok true⟩

/-- A store oracle whose calls all reject. -/
def storeAllFail : Keytar :=
  ⟨fun _ _ _ => false, fun _ _ => .error (), fun _ _ => .error ()⟩

/-- Per-path transform over the nested paths `a.b` and `a`, serializing,
clearing. -/
def cfgNested : TConfig :=
  ⟨"svc", none, some (.listP [[.key "a", .key "b"], [.key "a"]]), true, true⟩

/-- A state holding `"x"` at `a.b`. -/
def stNested : JVal := .obj [("a", .obj [("b", .str "x")])]

/-- Per-path transform over the top-level paths `a` and `b`. -/
def cfgTwo : TConfig :=
  ⟨"svc", none, some (.listP [[.key "a"], [.key "b"]]), true, false⟩

/-- A state whose `a` is falsy (the empty string) and whose `b` is a
truthy secret. -/
def stFalsy : JVal := .obj [("a", .str ""), ("b", .str "x")]

/-- A transform whose path selector resolves to the empty sequence. -/
def cfgEmptyList : TConfig :=
  ⟨"svc", none, some (.fnP fun _ => .listP []), true, false⟩

/-- A transform whose path selector resolves to null, with an account
name configured; `serialize` is `false` as construction derives it for a
truthy (function) `passwordPaths`. -/
def cfgNulFn : TConfig :=
  ⟨"svc", some "acct", some (.fnP fun _ => .nul), true, false⟩

/-- A one-field state. -/
def stSimple : JVal := .obj [("x", .num 1)]

/-- A state with truthy secrets at both `a` and `b`. -/
def stTwo : JVal := .obj [("a", .str "x"), ("b", .str "y")]

/-- Like `cfgTwo` but with clearing disabled. -/
def cfgNoClear : TConfig :=
  ⟨"svc", none, some (.listP [[.key "a"], [.key "b"]]), false, false⟩

/-- A whole-object transform, as constructed from service `FedGovt` and
account `NSA` with no `passwordPaths`. -/
def cfgWhole : TConfig := ⟨"FedGovt", some "NSA", none, true, true⟩

/-- A store oracle that resolves every read to `null` (entry absent). -/
def storeNullRead : Keytar :=
  ⟨fun _ _ _ => true, fun _ _ => .ok none, fun _ _ => .ok true⟩

/-- A store oracle that resolves every read to a malformed JSON
payload. -/
def storeBadJson : Keytar :=
  ⟨fun _ _ _ => true, fun _ _ => .ok (some "\x7b"), fun _ _ => .ok true⟩

/-- C8: the keychain access probe performs its write and delete under
the account name with the fixed `-access` suffix appended (every store
event targets only that derived account); it returns `true` exactly when
the write resolves and the delete both resolves and reports an
affirmative result; a rejection at either step or a delete reporting
nothing deleted yields `false`; and it never throws (it is a total
function into `Bool`). -/
theorem C8_access_probe (K : Keytar) (serviceName accountName : String) :
    ((accessKeychain K serviceName accountName).1 = true ↔
      (K.setOk serviceName (.name (accountName ++ "-access")) "access" = true ∧
       K.del serviceName (.name (accountName ++ "-access")) = .ok true)) ∧
    (accessKeychain K serviceName accountName).2.all
      (probeEvOk (accountName ++ "-access")) = true := by
  unfold accessKeychain
  cases hset : K.setOk serviceName (.name (accountName ++ "-access")) "access" with
  | false =>
    simp [hset, probeEvOk]
  | true =>
    cases hdel : K.del serviceName (.name (accountName ++ "-access")) with
    | error e =>
      cases e
      simp [hset, hdel, probeEvOk]
    | ok wasDeleted =>
      cases wasDeleted <;> simp [hset, hdel, probeEvOk]

/-- C9: construction throws exactly when `serviceName` is falsy or both
`accountName` and `passwordPaths` are falsy, synchronously (no pass is
involved in `createPasswordTransform`); in particular a truthy
`serviceName` with a function-valued `passwordPaths` and no
`accountName` constructs successfully. -/
theorem C9_construction (c : Config) (s : String) (f : JVal → PathsResult)
    (cp sz : Option Bool) :
    (constructionThrows c =
      (!strTruthy c.serviceName ||
        (!specTruthy c.passwordPaths && !strTruthy c.accountName))) ∧
    (s ≠ "" →
      constructionThrows ⟨some s, none, some (.fnP f), cp, sz⟩ = false) := by
  constructor
  · unfold constructionThrows createPasswordTransform
    cases h1 : strTruthy c.serviceName with
    | false => simp [h1]
    | true =>
      cases h2 : specTruthy c.passwordPaths with
      | false =>
        cases h3 : strTruthy c.accountName with
        | false => simp [h1, h2, h3]
        | true => simp [h1, h2, h3]
      | true => simp [h1, h2]
  · intro hs
    unfold constructionThrows createPasswordTransform
    simp [strTruthy, specTruthy, hs]

/-- Closed instance of C9: constructing with a service name and a
function-valued `passwordPaths` but no `accountName` does not throw. -/
theorem C9_construction_witness :
    ("tryThis" : String) ≠ "" ∧
    constructionThrows
      ⟨some "tryThis", none, some (.fnP fun _ => .strP [.key "x"]), none, none⟩ =
      false :=
  ⟨by decide,
   (C9_construction ⟨none, none, none, none, none⟩ "tryThis"
      (fun _ => .strP [.key "x"]) none none).2 (by decide)⟩

/-- C10: in whole-object mode, a store read that resolves with no stored
value (keytar's `null`) makes the rehydration hook return the JSON
`null` as the whole hydrated state — not an empty object (and therefore
not any object, in particular not the input state): `JSON.parse`
coerces the `null` payload to the string `null`, which parses to `null`
without raising. -/
theorem C10_null_payload (t : TConfig) (K : Keytar) (state : JVal)
    (hpp : t.passwordPaths = none)
    (hget : K.get t.serviceName (rawAccount t.accountName) = .ok none) :
    (outbound t K state).1 = JVal.null ∧ ∀ fs, JVal.null ≠ JVal.obj fs := by
  refine ⟨?_, fun fs h => JVal.noConfusion h⟩
  have hparse : jsonParseJs none = .ok JVal.null := by rfl
  have hgp : getPasswordPaths (none : Option PathSpec) state = none := rfl
  unfold outbound
  rw [hpp]
  simp only [hgp, hget, hparse]

/-- Closed instance of C10: with an absent stored entry, whole-object
rehydration yields `null`. -/
theorem C10_null_payload_witness :
    cfgWhole.passwordPaths = none ∧
    storeNullRead.get cfgWhole.serviceName (rawAccount cfgWhole.accountName) =
      .ok none ∧
    (outbound cfgWhole storeNullRead stSimple).1 = JVal.null :=
  ⟨rfl, rfl, (C10_null_payload cfgWhole storeNullRead stSimple rfl rfl).1⟩

/-- C6: a transform constructed without `passwordPaths` runs its
persistence hook in whole-object mode: it JSON-stringifies the entire
(object) state, attempts one store write of that payload under the raw
configured account, and returns the empty object whether the write
succeeds or fails (a failure only adds a log line). -/
theorem C6_whole_object_write (c : Config) (t : TConfig) (K : Keytar)
    (fs : List (String × JVal))
    (hok : createPasswordTransform c = .ok t)
    (hpp : c.passwordPaths = none) :
    jsonStringify (JVal.obj fs) =
      some ("\x7b" ++ String.intercalate "," (jsonObjItems fs) ++ "\x7d") ∧
    (inbound t K (.obj fs)).1 = JVal.obj [] ∧
    (inbound t K (.obj fs)).2 =
      (if K.setOk t.serviceName (rawAccount t.accountName)
          ("\x7b" ++ String.intercalate "," (jsonObjItems fs) ++ "\x7d") then
        [.setA (rawAccount t.accountName)
          ("\x7b" ++ String.intercalate "," (jsonObjItems fs) ++ "\x7d") true]
      else
        [.setA (rawAccount t.accountName)
          ("\x7b" ++ String.intercalate "," (jsonObjItems fs) ++ "\x7d") false,
         .log .wholeWriteFail]) := by
  unfold createPasswordTransform at hok
  rw [hpp] at hok
  simp only [specTruthy] at hok
  split at hok
  · exact Except.noConfusion hok
  · split at hok
    · exact Except.noConfusion hok
    · injection hok with ht
      subst ht
      refine ⟨rfl, ?_, ?_⟩ <;>
        · unfold inbound
          have hgp : getPasswordPaths (none : Option PathSpec) (JVal.obj fs) =
              none := rfl
          rw [hgp]
          simp only [jsSpread, coerceString, Bool.or_true, if_true, jsonStringify]
          cases hset : K.setOk (c.serviceName.getD "") (rawAccount c.accountName)
              ("\x7b" ++ String.intercalate "," (jsonObjItems fs) ++ "\x7d") <;>
            simp [hset]

/-- Closed instance of C6: persisting `secret.password` state in
whole-object mode stores the full JSON and returns the empty object. -/
theorem C6_whole_object_write_witness :
    createPasswordTransform ⟨some "FedGovt", some "NSA", none, none, none⟩ =
      .ok cfgWhole ∧
    (inbound cfgWhole storeAllOk
        (.obj [("secret", .obj [("password", .num 4815162342)])])).1 =
      JVal.obj [] :=
  ⟨rfl,
   (C6_whole_object_write ⟨some "FedGovt", some "NSA", none, none, none⟩
      cfgWhole storeAllOk [("secret", .obj [("password", .num 4815162342)])]
      rfl rfl).2.1⟩

/-- C7: in whole-object mode the rehydration hook reads the stored
secret under the raw configured account; a resolved read whose payload
JSON-parses yields that parsed value as the entire new state; a rejected
read, or a payload that fails to parse, is logged and yields the empty
object — the hook never throws and never returns a partial state. -/
theorem C7_whole_object_read (t : TConfig) (K : Keytar) (state : JVal)
    (hpp : t.passwordPaths = none) :
    (K.get t.serviceName (rawAccount t.accountName) = .error () →
      outbound t K state =
        (JVal.obj [],
         [.getA (rawAccount t.accountName) (.error ()), .log .wholeReadFail])) ∧
    (∀ sec v, K.get t.serviceName (rawAccount t.accountName) = .ok sec →
      jsonParseJs sec = .ok v →
      outbound t K state = (v, [.getA (rawAccount t.accountName) (.ok sec)])) ∧
    (∀ sec, K.get t.serviceName (rawAccount t.accountName) = .ok sec →
      jsonParseJs sec = .error () →
      outbound t K state =
        (JVal.obj [],
         [.getA (rawAccount t.accountName) (.ok sec), .log .wholeReadFail])) := by
  have hgp : getPasswordPaths (none : Option PathSpec) state = none := rfl
  refine ⟨?_, ?_, ?_⟩
  · intro herr
    unfold outbound
    rw [hpp]
    simp only [hgp, herr]
  · intro sec v hget hparse
    unfold outbound
    rw [hpp]
    simp only [hgp, hget, hparse]
  · intro sec hget hparse
    unfold outbound
    rw [hpp]
    simp only [hgp, hget, hparse]

/-- Closed instance of C7: a malformed stored payload makes whole-object
rehydration return the empty object with a log line. -/
theorem C7_whole_object_read_witness :
    cfgWhole.passwordPaths = none ∧
    outbound cfgWhole storeBadJson stSimple =
      (JVal.obj [],
       [.getA (rawAccount cfgWhole.accountName) (.ok (some "\x7b")),
        .log .wholeReadFail]) :=
  ⟨rfl,
   (C7_whole_object_read cfgWhole storeBadJson stSimple rfl).2.2
     (some "\x7b") rfl (by rfl)⟩

/-- Unfolding one step of the persist-side per-path loop. -/
theorem runInPaths_cons (t : TConfig) (K : Keytar) (st : JVal) (p : JPath)
    (rest : List JPath) :
    runInPaths t K st (p :: rest) =
      ((runInPaths t K (setPasswordForPath t K st p).1 rest).1,
       (setPasswordForPath t K st p).2 ++
       (runInPaths t K (setPasswordForPath t K st p).1 rest).2) := rfl

/-- Unfolding one step of the hydrate-side per-path loop. -/
theorem runOutPaths_cons (t : TConfig) (K : Keytar) (st : JVal) (p : JPath)
    (rest : List JPath) :
    runOutPaths t K st (p :: rest) =
      ((runOutPaths t K (getPasswordForPath t K st p).1 rest).1,
       (getPasswordForPath t K st p).2 ++
       (runOutPaths t K (getPasswordForPath t K st p).1 rest).2) := rfl

/-- The persist-side loop over an appended path list runs the first part
and continues from its final working copy, concatenating traces. -/
theorem runInPaths_append (t : TConfig) (K : Keytar) (st : JVal)
    (l₁ l₂ : List JPath) :
    runInPaths t K st (l₁ ++ l₂) =
      ((runInPaths t K (runInPaths t K st l₁).1 l₂).1,
       (runInPaths t K st l₁).2 ++
       (runInPaths t K (runInPaths t K st l₁).1 l₂).2) := by
  induction l₁ generalizing st with
  | nil => simp [runInPaths]
  | cons p rest ih =>
    simp only [List.cons_append, runInPaths_cons, ih, List.append_assoc]

/-- The hydrate-side loop over an appended path list runs the first part
and continues from its final working copy, concatenating traces. -/
theorem runOutPaths_append (t : TConfig) (K : Keytar) (st : JVal)
    (l₁ l₂ : List JPath) :
    runOutPaths t K st (l₁ ++ l₂) =
      ((runOutPaths t K (runOutPaths t K st l₁).1 l₂).1,
       (runOutPaths t K st l₁).2 ++
       (runOutPaths t K (runOutPaths t K st l₁).1 l₂).2) := by
  induction l₁ generalizing st with
  | nil => simp [runOutPaths]
  | cons p rest ih =>
    simp only [List.cons_append, runOutPaths_cons, ih, List.append_assoc]

/-- A failing store read (or failing decode) leaves the hydrate-side
working copy untouched. -/
theorem getPasswordForPath_fail_noop (t : TConfig) (K : Keytar) (w : JVal)
    (p : JPath) (h : getCallFails t K p = true) :
    (getPasswordForPath t K w p).1 = w := by
  unfold getCallFails at h
  unfold getPasswordForPath
  cases hk : K.get t.serviceName (accountFor t.accountName p) with
  | error e => cases e; simp [hk]
  | ok sec =>
    rw [hk] at h
    cases sec with
    | none => simp at h
    | some s =>
      by_cases hs : s = ""
      · simp [hs] at h
      · simp only [hs, if_false] at h
        simp only [hk]
        cases hser : t.serialize with
        | false => rw [hser] at h; simp at h
        | true =>
          rw [hser] at h
          simp only [if_true] at h
          cases hj : jsonParse s with
          | ok v => rw [hj] at h; simp at h
          | error e => cases e; simp [hs, hser, hj]

/-- A failing store write leaves the persist-side working copy untouched
(the value at the path was truthy, so no early bailout occurred, and no
deletion happened since the write did not succeed). -/
theorem setPasswordForPath_fail_noop (t : TConfig) (K : Keytar) (w : JVal)
    (p : JPath) (ht : truthy (getPath w p) = true)
    (h : setCallFails t K w p = true) :
    (setPasswordForPath t K w p).1 = w := by
  unfold setCallFails at h
  unfold setPasswordForPath
  cases hc : coerceString (getPath w p) t.serialize with
  | none => simp [ht, hc]
  | some payload =>
    rw [hc] at h
    simp only [Bool.not_eq_eq_eq_not, Bool.not_true] at h
    simp [ht, hc, h]

/-- C5: in per-path mode a failing secret-store or codec call for one
path is contained: the hooks remain total (they always return a state
and a trace, never an error), the failing path's step leaves the working
copy exactly as it was — on the persist side the path's original value
is retained because no deletion occurred — and the final state is the
same as if the failing path had not been in the list at all, with every
other path's processing (and trace) unchanged; the loop continues past
the failure. -/
theorem C5_failure_containment (t : TConfig) (K : Keytar) (st : JVal)
    (l₁ l₂ : List JPath) (p : JPath)
    (hget : getCallFails t K p = true)
    (htr : truthy (getPath (runInPaths t K st l₁).1 p) = true)
    (hset : setCallFails t K (runInPaths t K st l₁).1 p = true) :
    ((getPasswordForPath t K (runOutPaths t K st l₁).1 p).1 =
       (runOutPaths t K st l₁).1 ∧
     (runOutPaths t K st (l₁ ++ p :: l₂)).1 =
       (runOutPaths t K st (l₁ ++ l₂)).1 ∧
     (runOutPaths t K st (l₁ ++ p :: l₂)).2 =
       (runOutPaths t K st l₁).2 ++
       (getPasswordForPath t K (runOutPaths t K st l₁).1 p).2 ++
       (runOutPaths t K (runOutPaths t K st l₁).1 l₂).2) ∧
    ((setPasswordForPath t K (runInPaths t K st l₁).1 p).1 =
       (runInPaths t K st l₁).1 ∧
     (runInPaths t K st (l₁ ++ p :: l₂)).1 =
       (runInPaths t K st (l₁ ++ l₂)).1 ∧
     (runInPaths t K st (l₁ ++ p :: l₂)).2 =
       (runInPaths t K st l₁).2 ++
       (setPasswordForPath t K (runInPaths t K st l₁).1 p).2 ++
       (runInPaths t K (runInPaths t K st l₁).1 l₂).2) := by
  have noopO := getPasswordForPath_fail_noop t K (runOutPaths t K st l₁).1 p hget
  have noopI := setPasswordForPath_fail_noop t K (runInPaths t K st l₁).1 p htr hset
  constructor
  · refine ⟨noopO, ?_, ?_⟩
    · rw [runOutPaths_append t K st l₁ (p :: l₂),
        runOutPaths_append t K st l₁ l₂, runOutPaths_cons, noopO]
    · rw [runOutPaths_append t K st l₁ (p :: l₂), runOutPaths_cons, noopO,
        List.append_assoc]
  · refine ⟨noopI, ?_, ?_⟩
    · rw [runInPaths_append t K st l₁ (p :: l₂),
        runInPaths_append t K st l₁ l₂, runInPaths_cons, noopI]
    · rw [runInPaths_append t K st l₁ (p :: l₂), runInPaths_cons, noopI,
        List.append_assoc]

/-- Closed instance of C5: with a store rejecting every call, the
failing path `a` is a no-op and removing it from the list leaves the
persist result unchanged. -/
theorem C5_failure_containment_witness :
    getCallFails cfgTwo storeAllFail [.key "a"] = true ∧
    truthy (getPath (runInPaths cfgTwo storeAllFail stTwo [[.key "b"]]).1
      [.key "a"]) = true ∧
    setCallFails cfgTwo storeAllFail
      (runInPaths cfgTwo storeAllFail stTwo [[.key "b"]]).1 [.key "a"] = true ∧
    (runInPaths cfgTwo storeAllFail stTwo ([[.key "b"]] ++ [.key "a"] :: [])).1 =
      (runInPaths cfgTwo storeAllFail stTwo ([[.key "b"]] ++ [])).1 :=
  ⟨rfl, rfl, rfl,
   (C5_failure_containment cfgTwo storeAllFail stTwo [[.key "b"]] []
      [.key "a"] rfl rfl rfl).2.2.1⟩

/-- With clearing disabled, a persist-side step on a truthy value never
edits the working copy. -/
theorem setPasswordForPath_no_clear (t : TConfig) (K : Keytar) (st : JVal)
    (p : JPath) (hc : t.clearPasswords = false)
    (ht : truthy (getPath st p) = true) :
    (setPasswordForPath t K st p).1 = st := by
  unfold setPasswordForPath
  cases hco : coerceString (getPath st p) t.serialize with
  | none => simp [ht, hco]
  | some payload =>
    cases hset : K.setOk t.serviceName (accountFor t.accountName p) payload with
    | false => simp [ht, hco, hset]
    | true => simp [ht, hco, hset, hc]

/-- With clearing disabled and every path truthy in the starting copy,
the persist-side loop leaves the state fixed, so each step reads exactly
the starting (original) state's value. -/
theorem runInPaths_no_clear (t : TConfig) (K : Keytar) (st : JVal)
    (ps : List JPath) (hc : t.clearPasswords = false)
    (ht : ∀ p ∈ ps, truthy (getPath st p) = true) :
    runInPaths t K st ps =
      (st, (ps.map fun p => (setPasswordForPath t K st p).2).flatten) := by
  induction ps with
  | nil => rfl
  | cons p rest ih =>
    have h1 : (setPasswordForPath t K st p).1 = st :=
      setPasswordForPath_no_clear t K st p hc (ht p (by simp))
    rw [runInPaths_cons, h1, ih fun q hq => ht q (by simp [hq])]
    simp

/-- C1 (amended): in per-path mode the persist pass reads each path's
value from the progressively-edited working copy, not from the original
state, so a later path can observe an earlier path's deletion (see the
counterexample).  What survives of the claim: when `clearPasswords` is
false — so no step can delete — and every path is truthy in the original
state, the working copy stays equal to the (object) input state for the
whole pass, every path's store write carries the coercion of the
original state's value at that path, and the returned state is the input
state. -/
theorem C1_working_copy_reads (t : TConfig) (K : Keytar)
    (fs : List (String × JVal)) (ps : List JPath)
    (hres : getPasswordPaths t.passwordPaths (JVal.obj fs) = some ps)
    (hc : t.clearPasswords = false)
    (ht : ∀ p ∈ ps, truthy (getPath (JVal.obj fs) p) = true) :
    inbound t K (.obj fs) =
      (JVal.obj fs,
       (ps.map fun p => (setPasswordForPath t K (JVal.obj fs) p).2).flatten) := by
  unfold inbound
  simp only [hres, jsSpread]
  exact runInPaths_no_clear t K (.obj fs) ps hc ht

/-- C1 counterexample: with paths `a.b` then `a` (serializing, clearing)
on state `a.b = "x"`, the pass's second store write carries the empty
JSON object — the value of `a` in the working copy after the first
path's deletion — while the value of `a` in the original state coerces
to a different payload.  The pass therefore does not read from the
original state, and the second path observed the first path's
deletion. -/
theorem C1_counterexample :
    (inbound cfgNested storeAllOk stNested).2 =
      [.setA (.path [.key "a", .key "b"]) "\"x\"" true,
       .setA (.path [.key "a"]) "\x7b\x7d" true] ∧
    coerceString (getPath stNested [.key "a"]) cfgNested.serialize =
      some "\x7b\"b\":\"x\"\x7d" ∧
    ("\x7b\x7d" : String) ≠ "\x7b\"b\":\"x\"\x7d" :=
  ⟨rfl, rfl, by decide⟩

/-- Closed instance of the amended C1: with clearing disabled, both
paths' writes carry the original state's values and the state is
returned unchanged. -/
theorem C1_working_copy_reads_witness :
    getPasswordPaths cfgNoClear.passwordPaths stTwo =
      some [[.key "a"], [.key "b"]] ∧
    cfgNoClear.clearPasswords = false ∧
    (∀ p ∈ [[Seg.key "a"], [Seg.key "b"]],
      truthy (getPath stTwo p) = true) ∧
    inbound cfgNoClear storeAllOk stTwo =
      (stTwo,
       [.setA (.path [.key "a"]) "x" true, .setA (.path [.key "b"]) "y" true]) :=
  ⟨rfl, rfl, by decide,
   C1_working_copy_reads cfgNoClear storeAllOk
     [("a", .str "x"), ("b", .str "y")] [[.key "a"], [.key "b"]]
     rfl rfl (by decide)⟩

/-- C2 (code bug): at a state whose first path holds a falsy value (the
empty string at `a`) and whose second path holds a truthy secret at `b`,
the persist pass hits the bare JS `return;` in `setPasswordForPath`,
which resolves to `undefined`: the whole working copy becomes
`undefined`, the pass performs no store write at all (in particular none
for `b`), and returns `undefined` instead of a state preserving the
other fields — the claimed (and clearly intended) behavior is to log,
skip `a`, and continue with the working copy intact. -/
theorem C2_falsy_path_clobbers :
    inbound cfgTwo storeAllOk stFalsy =
      (JVal.undefined,
       [.log (.nothingAtPath [.key "a"]), .log (.nothingAtPath [.key "b"])]) ∧
    truthy (getPath stFalsy [.key "b"]) = true :=
  ⟨rfl, rfl⟩

/-- C3 counterexample: a path specification resolving to the empty
sequence does not raise anything — both hooks complete normally,
performing no secret-store call and returning the copied state — and one
resolving to null/undefined silently switches the pass into whole-object
mode (here: a store write under the configured account name) instead of
aborting the transform call. -/
theorem C3_counterexample :
    outbound cfgEmptyList storeAllOk stSimple = (stSimple, []) ∧
    inbound cfgEmptyList storeAllOk stSimple = (stSimple, []) ∧
    (inbound cfgNulFn storeAllOk stSimple).2 =
      [.setA (.name "acct") "[object Object]" true] :=
  ⟨rfl, rfl, rfl⟩

/-- C3 (amended): the main variant's path resolution never throws: a
specification resolving to the empty sequence yields hooks that make no
secret-store call and return the shallow copy of the state unchanged
(and a specification resolving to null/undefined selects whole-object
mode, per the counterexample) — no `ConfigurationError` aborts the
transform call. -/
theorem C3_empty_resolution_no_error (t : TConfig) (K : Keytar) (state : JVal)
    (h : getPasswordPaths t.passwordPaths state = some []) :
    inbound t K state = (jsSpread state, []) ∧
    outbound t K state = (jsSpread state, []) := by
  unfold inbound outbound
  simp only [h]
  exact ⟨rfl, rfl⟩

/-- Closed instance of the amended C3: an empty resolved sequence leaves
both hooks as no-ops on the copied state. -/
theorem C3_empty_resolution_no_error_witness :
    getPasswordPaths cfgEmptyList.passwordPaths stSimple = some [] ∧
    inbound cfgEmptyList storeAllOk stSimple = (jsSpread stSimple, []) :=
  ⟨rfl,
   (C3_empty_resolution_no_error cfgEmptyList storeAllOk stSimple rfl).1⟩

end RPTP
